import Mathlib

/-!
Verification of the scheduling-and-trade-off-optimization core of the
fullsail-csms-capstone repository: the LPT batch scheduler
(`src/dashboard/app/simulation/scheduler.py`), the Pareto dominance engine
(`src/dashboard/app/optimization/pareto.py`) and the cost-model / catalog
data types (`src/dashboard/app/data/schemas.py`).

Numbers are modelled with `ℚ` (Python floats in the source; all the
quantities involved are produced from exact decimal inputs by `+ - * / < ≤`,
so rational arithmetic mirrors the algorithms' branch structure exactly).
Python exceptions are modelled with `Except String`.
-/

/-- The four pricing-tier keys of the `rates` dictionary in
`InstanceType.rate_for_pricing`.  The Python source passes tiers around as
the strings `"ondemand" / "spot" / "1yr_ri" / "3yr_ri"`; the dictionary has
exactly these four keys, so the tier argument is modelled as an enumeration
(`label` recovers the string used inside configuration identifiers). -/
inductive PricingTier where
  | ondemand
  | spot
  | ri1yr
  | ri3yr
deriving DecidableEq, Repr

def PricingTier.label : PricingTier → String
  | .ondemand => "ondemand"
  | .spot => "spot"
  | .ri1yr => "1yr_ri"
  | .ri3yr => "3yr_ri"

/-- `InstanceType` from `data/schemas.py`: an AWS GPU instance type with
pricing across all tiers.  The reserved-instance rates are `Option`al —
some instances don't offer reserved pricing. -/
structure InstanceType where
  name : String
  gpu : String
  rate_ondemand : ℚ
  rate_spot : ℚ
  rate_1yr_ri : Option ℚ := none
  rate_3yr_ri : Option ℚ := none
  ratio : ℚ
  has_real_data : Bool := false
deriving DecidableEq, Repr

/-- `InstanceType.rate_for_pricing`: the `rates` dictionary lookup. -/
def InstanceType.rate_for_pricing (i : InstanceType) : PricingTier → Option ℚ
  | .ondemand => some i.rate_ondemand
  | .spot => some i.rate_spot
  | .ri1yr => i.rate_1yr_ri
  | .ri3yr => i.rate_3yr_ri

/-- `InstanceType.available_pricing`: `ondemand` and `spot` always, the two
reserved tiers only when their rate is present. -/
def InstanceType.available_pricing (i : InstanceType) : List PricingTier :=
  [PricingTier.ondemand, PricingTier.spot]
    ++ (if i.rate_1yr_ri.isSome then [PricingTier.ri1yr] else [])
    ++ (if i.rate_3yr_ri.isSome then [PricingTier.ri3yr] else [])

/-- `Event` from `data/schemas.py`, restricted to the fields the scheduler
and the sweep/dominance code read (`event_name`, `event_type`, `fps`,
`processing_time_sec`); the remaining fields are pass-through metadata the
verified core never inspects. -/
structure Event where
  event_name : String := ""
  event_type : String := ""
  fps : Option ℚ := none
  processing_time_sec : ℚ
deriving DecidableEq, Repr

/-- `EventAssignment` from `data/schemas.py`. -/
structure EventAssignment where
  event_name : String
  event_type : String
  processing_time_sec : ℚ
  fps : Option ℚ
  assigned_to : String
  processor_id : ℕ
  effective_time_sec : ℚ
deriving DecidableEq, Repr

/-- `CloudCostModel` from `data/schemas.py`, with the pydantic field
defaults. -/
structure CloudCostModel where
  instance_type : String := "g4dn.xlarge"
  cost_per_hour : ℚ := 526/1000
  spot_cost_per_hour : Option ℚ := some (16/100)
  use_spot : Bool := false
  cloud_time_per_event_sec : ℚ := 1378
  container_startup_sec : ℚ := 30
  data_transfer_sec_per_event : ℚ := 0
  data_transfer_cost_per_event : ℚ := 2/100
  ratio : Option ℚ := none
  pricing_tier : Option PricingTier := none
deriving DecidableEq, Repr

/-- `CloudCostModel.effective_cost_per_hour`: the spot rate when
`use_spot` is set and a spot rate is present, else the on-demand rate. -/
def CloudCostModel.effective_cost_per_hour (m : CloudCostModel) : ℚ :=
  match m.use_spot, m.spot_cost_per_hour with
  | true, some r => r
  | _, _ => m.cost_per_hour

/-- `CloudCostModel.event_cloud_time_for`: cloud wall-clock time for one
event — `ratio * on_prem_time` when a ratio is set, else the fixed
per-event time, plus the per-event data-transfer time. -/
def CloudCostModel.event_cloud_time_for (m : CloudCostModel) (on_prem_time_sec : ℚ) : ℚ :=
  let processing :=
    match m.ratio with
    | some r => r * on_prem_time_sec
    | none => m.cloud_time_per_event_sec
  processing + m.data_transfer_sec_per_event

/-- `CloudCostModel.event_cloud_cost_for`: cloud dollar cost for one event
— processing seconds over 3600 times the active hourly rate, plus the fixed
per-event transfer cost. -/
def CloudCostModel.event_cloud_cost_for (m : CloudCostModel) (on_prem_time_sec : ℚ) : ℚ :=
  let processing :=
    match m.ratio with
    | some r => r * on_prem_time_sec
    | none => m.cloud_time_per_event_sec
  processing / 3600 * m.effective_cost_per_hour + m.data_transfer_cost_per_event

/-- `CloudCostModel.from_instance`: build a cost model from a catalog entry
and a pricing tier; raises `ValueError` (modelled as `Except.error`) when
the tier's rate is absent for that instance.  Fields not set at the call
site keep their class defaults (the sweep calls it without extra kwargs). -/
def CloudCostModel.from_instance (inst : InstanceType) (pricing : PricingTier) :
    Except String CloudCostModel :=
  match inst.rate_for_pricing pricing with
  | none =>
      Except.error
        (pricing.label ++ " pricing not available for " ++ inst.name
          ++ " (" ++ inst.gpu ++ ")")
  | some rate =>
      Except.ok
        { instance_type := inst.name
          cost_per_hour := rate
          use_spot := false
          ratio := some inst.ratio
          pricing_tier := some pricing }

/-- `SiteProfile` from `data/schemas.py` (the `tier`/naming fields are
informational only). -/
structure SiteProfile where
  name : String := ""
  venue_code : String := ""
  available_gpus : ℕ
  tier : String := ""
deriving DecidableEq, Repr

/-- `BatchResult` from `data/schemas.py`: the output of one scheduler run. -/
structure BatchResult where
  config_id : String
  on_prem_gpus : ℕ
  cloud_containers : ℕ
  total_events : ℕ
  cloud_cost : ℚ
  turnaround_time_sec : ℚ
  events_on_prem : ℕ
  events_on_cloud : ℕ
  on_prem_finish_sec : ℚ
  cloud_finish_sec : ℚ
  assignments : Option (List EventAssignment) := none
deriving DecidableEq, Repr

/-- `ParetoPoint` from `data/schemas.py`. -/
structure ParetoPoint where
  config_id : String
  cost : ℚ
  time : ℚ
  cloud_containers : ℕ := 0
  is_pareto_optimal : Bool := false
  instance_type : Option String := none
  pricing_tier : Option PricingTier := none
deriving DecidableEq, Repr

instance : Inhabited ParetoPoint := ⟨{ config_id := "", cost := 0, time := 0 }⟩

/-- Python `max` of two rationals (`max(a, b)` returns `b` only when it is
strictly larger).  Defined by an explicit comparison so that concrete
schedules evaluate inside the kernel. -/
def ratMax (a b : ℚ) : ℚ := if a < b then b else a

/-- Python `min` of two rationals, same remark. -/
def ratMin (a b : ℚ) : ℚ := if b < a then b else a

/-- One heap entry of the scheduler: `(current_load_sec, processor_index,
is_cloud)` exactly as in the Python min-heap. -/
abbrev HeapEntry : Type := ℚ × ℕ × Bool

/-- Lexicographic order on heap entries, matching Python tuple comparison
(`False < True` for the boolean).  `heapq.heappop` returns the tuple-least
entry; processor indices are distinct in every reachable heap, so the least
entry is unique and the pop is deterministic. -/
def entryLe (a b : HeapEntry) : Bool :=
  a.1 < b.1 ||
    (a.1 == b.1 &&
      (a.2.1 < b.2.1 || (a.2.1 == b.2.1 && (!a.2.2 || b.2.2))))

/-- Remove the least heap entry (Python `heapq.heappop`).  The heap is
modelled as an unordered list; only the pop-least semantics of the binary
heap is relevant to the algorithm. -/
def popMin : List HeapEntry → Option (HeapEntry × List HeapEntry)
  | [] => none
  | e :: es =>
      match popMin es with
      | none => some (e, [])
      | some (m, rest) =>
          if entryLe e m then some (e, m :: rest) else some (m, e :: rest)

/-- Initial heap of `schedule_lpt`: on-prem GPUs at load `0`, cloud
containers at load `container_startup_sec`, with consecutive processor
indices. -/
def initHeap (on_prem_gpus cloud_containers : ℕ) (startup : ℚ) : List HeapEntry :=
  (List.range on_prem_gpus).map (fun i => ((0 : ℚ), i, false))
    ++ (List.range cloud_containers).map (fun i => (startup, on_prem_gpus + i, true))

/-- Maximum load over all heap entries, starting from `0.0` — the
`makespan` accumulation of the final extraction loop in `schedule_lpt`. -/
def maxLoad (entries : List HeapEntry) : ℚ :=
  entries.foldl (fun acc e => ratMax acc e.1) 0

/-- Maximum load over the heap entries of one pool (`is_cloud = b`),
starting from `0.0` — the `on_prem_finish` / `cloud_finish` accumulation of
the final extraction loop. -/
def maxLoadWhere (b : Bool) (entries : List HeapEntry) : ℚ :=
  entries.foldl (fun acc e => if e.2.2 == b then ratMax acc e.1 else acc) 0

/-- Mutable state of the assignment loop in `schedule_lpt`. -/
structure LptState where
  heap : List HeapEntry
  cloud_event_count : ℕ
  on_prem_event_count : ℕ
  total_cloud_cost : ℚ
  assignments : Option (List EventAssignment)
deriving DecidableEq, Repr

/-- One iteration of the `for event in sorted_events` loop of
`schedule_lpt`: pop the least-loaded processor, compute the event's
effective duration and (for cloud) its cost, optionally record an
assignment, push the processor back with the added load.  The `none`
branch of `popMin` is unreachable whenever at least one processor exists
(the heap size is invariant under the step). -/
def lptStep (cloud_model : CloudCostModel) (st : LptState) (event : Event) : LptState :=
  match popMin st.heap with
  | none => st
  | some ((load, proc_id, is_cloud), rest) =>
      let event_time :=
        if is_cloud then cloud_model.event_cloud_time_for event.processing_time_sec
        else event.processing_time_sec
      { heap := (load + event_time, proc_id, is_cloud) :: rest
        cloud_event_count :=
          if is_cloud then st.cloud_event_count + 1 else st.cloud_event_count
        on_prem_event_count :=
          if is_cloud then st.on_prem_event_count else st.on_prem_event_count + 1
        total_cloud_cost :=
          if is_cloud then
            st.total_cloud_cost + cloud_model.event_cloud_cost_for event.processing_time_sec
          else st.total_cloud_cost
        assignments :=
          st.assignments.map (fun l =>
            l ++ [{ event_name := event.event_name
                    event_type := event.event_type
                    processing_time_sec := event.processing_time_sec
                    fps := event.fps
                    assigned_to := if is_cloud then "cloud" else "on_prem"
                    processor_id := proc_id
                    effective_time_sec := event_time }]) }

/-- `sorted(events, key=lambda e: e.processing_time_sec, reverse=True)`:
Python's sort is stable, so descending-with-`reverse=True` keeps the input
order among equal durations; a stable insertion sort under the total
preorder `b.processing_time_sec ≤ a.processing_time_sec` produces the same
list. -/
def sortLpt (events : List Event) : List Event :=
  events.insertionSort (fun a b => b.processing_time_sec ≤ a.processing_time_sec)

/-- Body of `schedule_lpt` after the zero-processor guard. -/
def scheduleBody (events : List Event) (site : SiteProfile) (cloud_containers : ℕ)
    (cloud_model : CloudCostModel) (track_assignments : Bool) : BatchResult :=
  let on_prem_gpus := site.available_gpus
  let sorted_events := sortLpt events
  let init : LptState :=
    { heap := initHeap on_prem_gpus cloud_containers cloud_model.container_startup_sec
      cloud_event_count := 0
      on_prem_event_count := 0
      total_cloud_cost := 0
      assignments := if track_assignments then some [] else none }
  let final := sorted_events.foldl (lptStep cloud_model) init
  { config_id := "G" ++ toString on_prem_gpus ++ "_C" ++ toString cloud_containers
    on_prem_gpus := on_prem_gpus
    cloud_containers := cloud_containers
    total_events := events.length
    cloud_cost := final.total_cloud_cost
    turnaround_time_sec := maxLoad final.heap
    events_on_prem := final.on_prem_event_count
    events_on_cloud := final.cloud_event_count
    on_prem_finish_sec := maxLoadWhere false final.heap
    cloud_finish_sec := maxLoadWhere true final.heap
    assignments := final.assignments }

/-- `schedule_lpt` from `simulation/scheduler.py`: LPT scheduling of a
batch across on-prem GPUs and cloud containers; `ValueError` on zero total
processors is modelled as `Except.error`. -/
def schedule_lpt (events : List Event) (site : SiteProfile) (cloud_containers : ℕ)
    (cloud_model : CloudCostModel) (track_assignments : Bool := false) :
    Except String BatchResult :=
  if site.available_gpus + cloud_containers = 0 then
    Except.error "Must have at least one processor (on-prem GPU or cloud container)"
  else
    Except.ok (scheduleBody events site cloud_containers cloud_model track_assignments)

/-- Makespan of a scheduler call, `none` when the call raised. -/
def makespanOf (x : Except String BatchResult) : Option ℚ :=
  match x with
  | .ok r => some r.turnaround_time_sec
  | .error _ => none

/-- `is_dominated` from `optimization/pareto.py`: `point` is dominated by
`other` when `other` is better or equal on both objectives and strictly
better on at least one (minimization of both cost and time). -/
def is_dominated (point other : ℚ × ℚ) : Bool :=
  let cost_better_or_equal := other.1 ≤ point.1
  let time_better_or_equal := other.2 ≤ point.2
  let strictly_better := other.1 < point.1 || other.2 < point.2
  cost_better_or_equal && time_better_or_equal && strictly_better

/-- Inner loop of both frontier computations: does any index `j ≠ i`
dominate index `i` under the dominance test `d`?  (`break` on the first
dominating `j` in the pairwise version, `np.any` in the vectorized one;
the exclusion of `i` itself is `if i == j: continue` in the former and
`dominates[i] = False` in the latter.) -/
def dominatedAny (n : ℕ) (d : ℕ → ℕ → Bool) (i : ℕ) : Bool :=
  (List.range n).any (fun j => decide (j ≠ i) && d i j)

/-- One iteration of the outer flag loop shared by
`compute_pareto_frontier` and `compute_pareto_frontier_numpy`: skip `i`
when its flag is already cleared (dead code — iteration `i` is the only
writer of flag `i` and runs once), otherwise clear flag `i` when some
other index dominates it. -/
def paretoSweepStep (n : ℕ) (d : ℕ → ℕ → Bool) (flags : List Bool) (i : ℕ) : List Bool :=
  if flags.getD i true = false then flags
  else if dominatedAny n d i then flags.set i false
  else flags

/-- The `pareto_optimal` flag array after the full outer loop, starting
from all-`True`. -/
def paretoSweep (n : ℕ) (d : ℕ → ℕ → Bool) : List Bool :=
  (List.range n).foldl (paretoSweepStep n d) (List.replicate n true)

/-- One input tuple of `compute_pareto_frontier`:
`(config_id, cost, time)` optionally extended with a trailing
cloud-container count (`pt[3] if len(pt) > 3 else 0`); the 3-tuple case is
the default `cloud_containers := 0`. -/
structure SweepPoint where
  config_id : String := ""
  cost : ℚ
  time : ℚ
  cloud_containers : ℕ := 0
deriving DecidableEq, Repr

instance : Inhabited SweepPoint := ⟨{ config_id := "", cost := 0, time := 0 }⟩

/-- Dominance test of the pairwise implementation at indices `i, j`:
`is_dominated((cost_i, time_i), (cost_j, time_j))`. -/
def pairwiseDom (points : List SweepPoint) (i j : ℕ) : Bool :=
  is_dominated
    ((points.getD i default).cost, (points.getD i default).time)
    ((points.getD j default).cost, (points.getD j default).time)

/-- `compute_pareto_frontier` from `optimization/pareto.py`: pairwise
O(n^2) dominance flags, then one `ParetoPoint` per input tuple. -/
def compute_pareto_frontier (points : List SweepPoint) : List ParetoPoint :=
  let n := points.length
  let pareto_optimal := paretoSweep n (pairwiseDom points)
  (List.range n).map (fun i =>
    let pt := points.getD i default
    { config_id := pt.config_id
      cost := pt.cost
      time := pt.time
      cloud_containers := pt.cloud_containers
      is_pareto_optimal := pareto_optimal.getD i true })

/-- Dominance test of the vectorized implementation at indices `i, j`:
`costs[j] <= costs[i] and times[j] <= times[i] and (costs[j] < costs[i] or
times[j] < times[i])`, elementwise over the arrays. -/
def numpyDom (costs times : List ℚ) (i j : ℕ) : Bool :=
  (costs.getD j 0 ≤ costs.getD i 0) && (times.getD j 0 ≤ times.getD i 0) &&
    ((costs.getD j 0 < costs.getD i 0) || (times.getD j 0 < times.getD i 0))

/-- `compute_pareto_frontier_numpy` from `optimization/pareto.py`: the
vectorized variant over parallel cost/time arrays. -/
def compute_pareto_frontier_numpy (costs times : List ℚ) (config_ids : List String) :
    List ParetoPoint :=
  let n := costs.length
  let pareto_optimal := paretoSweep n (numpyDom costs times)
  (List.range n).map (fun i =>
    { config_id := config_ids.getD i ""
      cost := costs.getD i 0
      time := times.getD i 0
      is_pareto_optimal := pareto_optimal.getD i true })

/-- `calculate_weighted_score` from `optimization/pareto.py`: min-max
normalize cost and time (with the `1e-10` denominator padding of the
source) and return the weighted sum; lower is better. -/
def calculate_weighted_score (cost time cost_weight : ℚ)
    (cost_range time_range : ℚ × ℚ) : ℚ :=
  let time_weight := 1 - cost_weight
  let cost_norm := (cost - cost_range.1) / (cost_range.2 - cost_range.1 + 1 / 10000000000)
  let time_norm := (time - time_range.1) / (time_range.2 - time_range.1 + 1 / 10000000000)
  cost_weight * cost_norm + time_weight * time_norm

/-- Python `min` over a list of rationals (the empty case never occurs at
the call sites, which guard on non-emptiness). -/
def listMin : List ℚ → ℚ
  | [] => 0
  | x :: xs => xs.foldl ratMin x

/-- Python `max` over a list of rationals (same remark). -/
def listMax : List ℚ → ℚ
  | [] => 0
  | x :: xs => xs.foldl ratMax x

/-- The `score < best_score` accumulation step of
`find_optimal_configuration` (`best_score` starts at `inf`, modelled by
the `none` accumulator). -/
def bestStep (cost_weight : ℚ) (cost_range time_range : ℚ × ℚ)
    (best : Option (ParetoPoint × ℚ)) (point : ParetoPoint) : Option (ParetoPoint × ℚ) :=
  let score := calculate_weighted_score point.cost point.time cost_weight cost_range time_range
  match best with
  | none => some (point, score)
  | some (bp, bs) => if score < bs then some (point, score) else some (bp, bs)

/-- `find_optimal_configuration` from `optimization/pareto.py`: filter to
the Pareto-optimal points, min-max normalize over them only, and return
the point with the lowest weighted score (first wins ties); with no
optimal points fall back to the first input point, or `None` on an empty
input. -/
def find_optimal_configuration (pareto_points : List ParetoPoint)
    (cost_weight : ℚ := 1/2) : Option ParetoPoint :=
  let optimal_only := pareto_points.filter (fun p => p.is_pareto_optimal)
  if optimal_only.isEmpty then pareto_points.head?
  else
    let costs := optimal_only.map (fun p => p.cost)
    let times := optimal_only.map (fun p => p.time)
    let cost_range := (listMin costs, listMax costs)
    let time_range := (listMin times, listMax times)
    (optimal_only.foldl (bestStep cost_weight cost_range time_range) none).map Prod.fst

/-- Python `range(start, stop, step)` over naturals (`step ≥ 1` at every
call site; `range` with `step = 0` raises in Python and never occurs). -/
def pyRange (start stop step : ℕ) : List ℕ :=
  if step = 0 then []
  else (List.range ((stop - start + (step - 1)) / step)).map (fun k => start + k * step)

/-- One output tuple of `generate_multi_instance_sweep`:
`(config_id, cost, time, instance_name, pricing, cloud_containers)`. -/
structure MultiSweepPoint where
  config_id : String
  cost : ℚ
  time : ℚ
  instance_name : String
  pricing : PricingTier
  cloud_containers : ℕ
deriving DecidableEq, Repr

/-- The four pricing tiers, in the catalog's order. -/
def allTiers : List PricingTier :=
  [PricingTier.ondemand, PricingTier.spot, PricingTier.ri1yr, PricingTier.ri3yr]

/-- `generate_multi_instance_sweep` from `optimization/pareto.py`: sweep
all instance types × requested pricing tiers available for each instance ×
container counts `range(0, max+1, step)`; `continue` on unavailable tiers
is the filter.  Exceptions from `from_instance` (unreachable after the
filter) and from `schedule_lpt` propagate through the `Except` monad. -/
def generate_multi_instance_sweep (events : List Event) (site : SiteProfile)
    (instance_types : List InstanceType) (pricing_modes : List PricingTier)
    (max_cloud_containers : ℕ := 50) (step : ℕ := 1) :
    Except String (List MultiSweepPoint) := do
  let nested ← instance_types.mapM (fun inst => do
    let perTier ←
      (pricing_modes.filter (fun pricing => pricing ∈ inst.available_pricing)).mapM
        (fun pricing => do
          let cloud_model ← CloudCostModel.from_instance inst pricing
          (pyRange 0 (max_cloud_containers + 1) step).mapM (fun c => do
            let result ← schedule_lpt events site c cloud_model
            pure { config_id := inst.gpu ++ "_" ++ pricing.label ++ "_C" ++ toString c
                   cost := result.cloud_cost
                   time := result.turnaround_time_sec
                   instance_name := inst.name
                   pricing := pricing
                   cloud_containers := c : MultiSweepPoint }))
    pure perTier.flatten)
  pure nested.flatten

/-- Every way of assigning `n` jobs to processors `0 .. p-1`, as lists of
processor indices (job `k` of the event list goes to processor
`assign.get k`).  This is the search space defining the true optimal
makespan the spec's 4/3 claim refers to. -/
def allAssignments : ℕ → ℕ → List (List ℕ)
  | 0, _ => [[]]
  | n + 1, p => (allAssignments n p).flatMap (fun v => (List.range p).map (fun i => i :: v))

/-- Modelled from the spec: final load of processor `p` under an explicit
assignment — `0` base load and the measured duration per job for a fixed
(on-prem) processor, start-up overhead base load and the cost-model
elastic duration per job for an elastic one.  This mirrors how
`schedule_lpt` accrues load, but for an arbitrary assignment. -/
def procLoad (events : List Event) (gpus : ℕ) (model : CloudCostModel)
    (assign : List ℕ) (p : ℕ) : ℚ :=
  let base : ℚ := if p < gpus then 0 else model.container_startup_sec
  base + ((events.zip assign).foldl (fun acc eq =>
    if eq.2 = p then
      acc + (if p < gpus then eq.1.processing_time_sec
             else model.event_cloud_time_for eq.1.processing_time_sec)
    else acc) 0)

/-- Makespan of one explicit assignment: maximum final load over all
`gpus + containers` processors (idle elastic processors keep their
start-up load, exactly as in the scheduler's extraction loop). -/
def assignmentMakespan (events : List Event) (gpus containers : ℕ)
    (model : CloudCostModel) (assign : List ℕ) : ℚ :=
  (List.range (gpus + containers)).foldl
    (fun acc p => ratMax acc (procLoad events gpus model assign p)) 0

/-- The optimal (minimum achievable) makespan for a job list and processor
configuration: the minimum of `assignmentMakespan` over every assignment.
This is the mathematical reference point of the claimed 4/3 bound. -/
def optMakespan (events : List Event) (gpus containers : ℕ)
    (model : CloudCostModel) : ℚ :=
  match (allAssignments events.length (gpus + containers)).map
      (assignmentMakespan events gpus containers model) with
  | [] => 0
  | x :: xs => xs.foldl ratMin x

/-- Cost model exhibiting the two-speed behaviour: elastic processors run
ten times slower than the fixed pool, with no start-up or transfer
overhead. -/
def c1Model : CloudCostModel :=
  { cost_per_hour := 1, spot_cost_per_hour := none, use_spot := false,
    cloud_time_per_event_sec := 1378, container_startup_sec := 0,
    data_transfer_sec_per_event := 0, data_transfer_cost_per_event := 0,
    ratio := some 10 }

/-- Four jobs of three seconds each. -/
def c1Events : List Event :=
  [{ processing_time_sec := 3 }, { processing_time_sec := 3 },
   { processing_time_sec := 3 }, { processing_time_sec := 3 }]

/-- A site with two on-prem GPUs. -/
def c1Site : SiteProfile := { available_gpus := 2 }

/-- A site with one on-prem GPU. -/
def oneGpuSite : SiteProfile := { available_gpus := 1 }

/-- A site with no on-prem GPUs at all. -/
def zeroGpuSite : SiteProfile := { available_gpus := 0 }

/-- The default cost model (all pydantic defaults, in particular a
30-second container start-up). -/
def defaultModel : CloudCostModel := {}

/-- Frontier point `(cost 0, time 10000)` of the spec's weighted-selection
example. -/
def c4PointA : ParetoPoint :=
  { config_id := "A", cost := 0, time := 10000, is_pareto_optimal := true }

/-- Frontier point `(cost 100, time 5000)` of the spec's
weighted-selection example. -/
def c4PointB : ParetoPoint :=
  { config_id := "B", cost := 100, time := 5000, is_pareto_optimal := true }

/-- Ratio-2 cost model of the spec's numerical example: `$1/hr`, no
start-up, no transfer time, no transfer cost. -/
def c9Model : CloudCostModel :=
  { cost_per_hour := 1, spot_cost_per_hour := none, use_spot := false,
    container_startup_sec := 0, data_transfer_sec_per_event := 0,
    data_transfer_cost_per_event := 0, ratio := some 2 }

/-- A catalog entry with no reserved pricing (shaped like the
`p3.2xlarge` row of the repository's catalog). -/
def noRiInstance : InstanceType :=
  { name := "p3.2xlarge", gpu := "Tesla V100", rate_ondemand := 306/100,
    rate_spot := 918/1000, rate_1yr_ri := none, rate_3yr_ri := none,
    ratio := 1 }

/-- A catalog entry offering all four pricing tiers (shaped like the
`g4dn.xlarge` row of the repository's catalog). -/
def fullInstance : InstanceType :=
  { name := "g4dn.xlarge", gpu := "Tesla T4", rate_ondemand := 526/1000,
    rate_spot := 158/1000, rate_1yr_ri := some (331/1000),
    rate_3yr_ri := some (227/1000), ratio := 218/100 }

/-- A one-event job list for small witnesses. -/
def oneEvent : List Event := [{ processing_time_sec := 5 }]

/-- A two-point sweep where the second point is dominated by the first. -/
def c2Points : List SweepPoint :=
  [{ config_id := "a", cost := 0, time := 10 }, { config_id := "b", cost := 1, time := 20 }]

/-- The spec's weighted-selection frontier. -/
def c4Points : List ParetoPoint := [c4PointA, c4PointB]

/-- A two-entry catalog: one instance with all four tiers, one without
reserved pricing. -/
def c7Catalog : List InstanceType := [fullInstance, noRiInstance]

/-- Two events of distinct durations for scheduler witnesses. -/
def twoEvents : List Event :=
  [{ processing_time_sec := 5 }, { processing_time_sec := 2 }]

/-- The weighted score of a frontier point under given ranges (the value
`find_optimal_configuration` minimizes). -/
def wscore (cw : ℚ) (cr tr : ℚ × ℚ) (p : ParetoPoint) : ℚ :=
  calculate_weighted_score p.cost p.time cw cr tr

/-- The cost model `from_instance` builds for an available tier (stated
with `getD`, which agrees with the present rate). -/
def fromInstanceModel (inst : InstanceType) (pricing : PricingTier) : CloudCostModel :=
  { instance_type := inst.name
    cost_per_hour := (inst.rate_for_pricing pricing).getD 0
    use_spot := false
    ratio := some inst.ratio
    pricing_tier := some pricing }

/-- The sweep point the multi-instance sweep produces for one instance,
one tier and one container count. -/
def sweepPointAt (events : List Event) (site : SiteProfile) (inst : InstanceType)
    (pricing : PricingTier) (c : ℕ) : MultiSweepPoint :=
  { config_id := inst.gpu ++ "_" ++ pricing.label ++ "_C" ++ toString c
    cost := (scheduleBody events site c (fromInstanceModel inst pricing) false).cloud_cost
    time := (scheduleBody events site c
      (fromInstanceModel inst pricing) false).turnaround_time_sec
    instance_name := inst.name
    pricing := pricing
    cloud_containers := c }

/-- The block of sweep points one catalog instance contributes when all
four tiers are requested. -/
def instSweep (events : List Event) (site : SiteProfile) (maxC : ℕ)
    (inst : InstanceType) : List MultiSweepPoint :=
  ((allTiers.filter (fun pricing => pricing ∈ inst.available_pricing)).map (fun pricing =>
    (pyRange 0 (maxC + 1) 1).map (fun c => sweepPointAt events site inst pricing c))).flatten

/-! ## Theorems -/

/-- `paretoSweepStep` never changes the length of the flag array. -/
theorem paretoSweepStep_length (n : ℕ) (d : ℕ → ℕ → Bool) (flags : List Bool) (i : ℕ) :
    (paretoSweepStep n d flags i).length = flags.length := by
  unfold paretoSweepStep
  split
  · rfl
  · split <;> simp [List.length_set]

/-- After the outer loop has processed indices `0 .. k-1`, flag `i` is the
no-dominator test for `i < k` and still `True` beyond; in particular the
`continue` on an already-cleared own flag is dead code. -/
theorem paretoSweep_aux (n : ℕ) (d : ℕ → ℕ → Bool) :
    ∀ k, k ≤ n →
      ((List.range k).foldl (paretoSweepStep n d) (List.replicate n true)).length = n ∧
      (∀ i, i < n →
        ((List.range k).foldl (paretoSweepStep n d) (List.replicate n true)).getD i true =
          if i < k then !dominatedAny n d i else true) := by
  intro k
  induction k with
  | zero =>
      intro _
      refine ⟨by simp, ?_⟩
      intro i hi
      simp [List.getD_eq_getElem?_getD, List.getElem?_replicate, hi]
  | succ k ih =>
      intro hk
      obtain ⟨hlen, hval⟩ := ih (Nat.le_of_succ_le hk)
      have hkn : k < n := hk
      rw [List.range_succ (n := k), List.foldl_append]
      set F := (List.range k).foldl (paretoSweepStep n d) (List.replicate n true) with hF
      simp only [List.foldl_cons, List.foldl_nil]
      have hFk : F.getD k true = true := by
        rw [hval k hkn]
        simp
      have hstep : paretoSweepStep n d F k =
          if dominatedAny n d k = true then F.set k false else F := by
        unfold paretoSweepStep
        rw [hFk]
        simp
      rw [hstep]
      by_cases hdom : dominatedAny n d k = true
      · rw [if_pos hdom]
        refine ⟨by simp [List.length_set, hlen], ?_⟩
        intro i hi
        by_cases hik : i = k
        · subst hik
          rw [if_pos (Nat.lt_succ_of_le (Nat.le_refl i))]
          simp [List.getD_eq_getElem?_getD, List.getElem?_set, hlen, hi, hdom]
        · have hset : (F.set k false).getD i true = F.getD i true := by
            simp [List.getD_eq_getElem?_getD,
              List.getElem?_set_ne (show k ≠ i from fun h => hik h.symm)]
          rw [hset, hval i hi]
          by_cases hik' : i < k
          · rw [if_pos hik', if_pos (Nat.lt_succ_of_lt hik')]
          · rw [if_neg hik', if_neg (by omega)]
      · rw [if_neg hdom]
        refine ⟨hlen, ?_⟩
        intro i hi
        rw [hval i hi]
        by_cases hik : i = k
        · subst hik
          rw [if_neg (Nat.lt_irrefl i), if_pos (Nat.lt_succ_of_le (Nat.le_refl i))]
          simp [Bool.not_eq_true] at hdom
          rw [hdom]
          rfl
        · by_cases hik' : i < k
          · rw [if_pos hik', if_pos (Nat.lt_succ_of_lt hik')]
          · rw [if_neg hik', if_neg (by omega)]

/-- Flag `i` of the finished sweep is exactly "no other index dominates
`i`". -/
theorem paretoSweep_getD (n : ℕ) (d : ℕ → ℕ → Bool) (i : ℕ) (hi : i < n) :
    (paretoSweep n d).getD i true = !dominatedAny n d i := by
  have h := (paretoSweep_aux n d n (Nat.le_refl n)).2 i hi
  rw [paretoSweep, h, if_pos hi]

/-- Boolean `any`-form of "some other index dominates `i`". -/
theorem dominatedAny_eq_false_iff (n : ℕ) (d : ℕ → ℕ → Bool) (i : ℕ) :
    dominatedAny n d i = false ↔ ∀ j, j < n → j ≠ i → d i j = false := by
  rw [dominatedAny]
  simp [List.any_eq_false, List.mem_range]

/-- Indexing a map over `List.range`. -/
theorem getD_map_range {α : Type} (f : ℕ → α) (n i : ℕ) (hi : i < n) (d : α) :
    ((List.range n).map f).getD i d = f i := by
  simp [List.getD_eq_getElem?_getD, List.getElem?_range, hi]

/-- Indexing a map at an in-bounds index. -/
theorem getD_map_lt {α β : Type} (f : α → β) (l : List α) (i : ℕ) (hi : i < l.length)
    (dA : α) (dB : β) : (l.map f).getD i dB = f (l.getD i dA) := by
  simp [List.getD_eq_getElem?_getD, List.getElem?_map, List.getElem?_eq_getElem hi,
    List.getD_eq_getElem l dA hi]

/-- Propositional reading of `is_dominated`. -/
theorem is_dominated_iff (p o : ℚ × ℚ) :
    is_dominated p o = true ↔ (o.1 ≤ p.1 ∧ o.2 ≤ p.2 ∧ (o.1 < p.1 ∨ o.2 < p.2)) := by
  simp [is_dominated, and_assoc]

/-- Congruence for boolean `any` under a pointwise-equal predicate. -/
theorem any_congr_bool (l : List ℕ) (p q : ℕ → Bool) (h : ∀ x ∈ l, p x = q x) :
    l.any p = l.any q := by
  induction l with
  | nil => rfl
  | cons x xs ih =>
      simp only [List.any_cons, h x (List.mem_cons_self x xs),
        ih (fun y hy => h y (List.mem_cons_of_mem x hy))]

/-- C2: `compute_pareto_frontier` flags point `i` Pareto-optimal exactly
when no other point of the set is weakly better on both cost and time and
strictly better on at least one; a point never dominates an identical
point, and two points never dominate each other simultaneously. -/
theorem pareto_dominance_correct (points : List SweepPoint) (i : ℕ)
    (hi : i < points.length) :
    (((compute_pareto_frontier points).getD i default).is_pareto_optimal = true ↔
      ∀ j, j < points.length → j ≠ i →
        is_dominated
          ((points.getD i default).cost, (points.getD i default).time)
          ((points.getD j default).cost, (points.getD j default).time) = false)
    ∧ (∀ A B : ℚ × ℚ, A = B → is_dominated A B = false)
    ∧ (∀ A B : ℚ × ℚ, ¬(is_dominated A B = true ∧ is_dominated B A = true)) := by
  refine ⟨?_, ?_, ?_⟩
  · rw [compute_pareto_frontier]
    rw [getD_map_range _ _ _ hi]
    simp only
    rw [paretoSweep_getD _ _ _ hi, Bool.not_eq_true', dominatedAny_eq_false_iff]
    unfold pairwiseDom
    rfl
  · rintro A B rfl
    simp [is_dominated]
  · rintro A B ⟨hab, hba⟩
    rw [is_dominated_iff] at hab hba
    rcases hab with ⟨h1, h2, h3 | h3⟩ <;> rcases hba with ⟨h4, h5, -⟩
    · exact absurd h3 (not_lt.mpr h4)
    · exact absurd h3 (not_lt.mpr h5)

/-- Witness for C2 at a concrete two-point input. -/
theorem pareto_dominance_correct_witness :
    1 < c2Points.length ∧
    ((((compute_pareto_frontier c2Points).getD 1 default).is_pareto_optimal = true ↔
      ∀ j, j < c2Points.length → j ≠ 1 →
        is_dominated
          ((c2Points.getD 1 default).cost, (c2Points.getD 1 default).time)
          ((c2Points.getD j default).cost, (c2Points.getD j default).time) = false)
    ∧ (∀ A B : ℚ × ℚ, A = B → is_dominated A B = false)
    ∧ (∀ A B : ℚ × ℚ, ¬(is_dominated A B = true ∧ is_dominated B A = true))) :=
  ⟨by simp [c2Points], pareto_dominance_correct c2Points 1 (by simp [c2Points])⟩

/-- The two per-index dominance tests agree on in-range indices. -/
theorem numpyDom_eq_pairwiseDom (points : List SweepPoint) (i j : ℕ)
    (hi : i < points.length) (hj : j < points.length) :
    numpyDom (points.map (fun p => p.cost)) (points.map (fun p => p.time)) i j =
      pairwiseDom points i j := by
  unfold numpyDom pairwiseDom is_dominated
  rw [getD_map_lt _ _ _ hi default, getD_map_lt _ _ _ hj default,
    getD_map_lt (fun p => SweepPoint.time p) _ _ hi default,
    getD_map_lt (fun p => SweepPoint.time p) _ _ hj default]

/-- C3: the vectorized frontier computation produces exactly the same
optimal/dominated flags, index by index, as the pairwise one. -/
theorem pareto_numpy_matches_pairwise (points : List SweepPoint) :
    (compute_pareto_frontier_numpy (points.map (fun p => p.cost))
        (points.map (fun p => p.time)) (points.map (fun p => p.config_id))).map
      (fun p => p.is_pareto_optimal)
    = (compute_pareto_frontier points).map (fun p => p.is_pareto_optimal) := by
  unfold compute_pareto_frontier_numpy compute_pareto_frontier
  simp only [List.map_map, List.length_map]
  apply List.map_congr_left
  intro i hmem
  have hi : i < points.length := List.mem_range.mp hmem
  simp only [Function.comp]
  rw [paretoSweep_getD _ _ _ hi, paretoSweep_getD _ _ _ hi]
  congr 1
  unfold dominatedAny
  apply any_congr_bool
  intro j hj
  have hjlt : j < points.length := List.mem_range.mp hj
  rw [numpyDom_eq_pairwiseDom points i j hi hjlt]

/-- C9: with `ratio = 2`, no start-up and no transfer overhead, a job of
local duration 500 s takes exactly 1000 s of elastic time, and at `$1/hr`
costs exactly `5/18` dollars, which is `$0.278` to within a thousandth of
a dollar. -/
theorem ratio_mode_timing_and_cost :
    c9Model.event_cloud_time_for 500 = 1000 ∧
    c9Model.event_cloud_cost_for 500 = 5/18 ∧
    |(5/18 : ℚ) - 278/1000| < 1/1000 := by
  refine ⟨?_, ?_, ?_⟩
  · norm_num [c9Model, CloudCostModel.event_cloud_time_for]
  · norm_num [c9Model, CloudCostModel.event_cloud_cost_for,
      CloudCostModel.effective_cost_per_hour]
  · rw [show (5/18 : ℚ) - 278/1000 = -(1/4500) by norm_num, abs_neg,
      abs_of_pos (by norm_num)]
    norm_num

/-- C8: requesting a pricing tier whose rate is absent from a catalog
entry always raises the configuration error and never returns a cost
model; when it does return one, the rate is exactly the requested tier's
rate (no substitution). -/
theorem from_instance_unavailable_tier_fails (inst : InstanceType) (pricing : PricingTier)
    (h : inst.rate_for_pricing pricing = none) :
    CloudCostModel.from_instance inst pricing =
      Except.error
        (pricing.label ++ " pricing not available for " ++ inst.name
          ++ " (" ++ inst.gpu ++ ")")
    ∧ (∀ m : CloudCostModel, CloudCostModel.from_instance inst pricing ≠ Except.ok m) := by
  constructor
  · unfold CloudCostModel.from_instance
    rw [h]
  · intro m hm
    unfold CloudCostModel.from_instance at hm
    rw [h] at hm
    exact Except.noConfusion hm

/-- Witness for C8: the catalog entry without reserved pricing. -/
theorem from_instance_unavailable_tier_fails_witness :
    noRiInstance.rate_for_pricing PricingTier.ri1yr = none ∧
    (CloudCostModel.from_instance noRiInstance PricingTier.ri1yr =
      Except.error
        (PricingTier.ri1yr.label ++ " pricing not available for " ++ noRiInstance.name
          ++ " (" ++ noRiInstance.gpu ++ ")")
    ∧ (∀ m : CloudCostModel,
        CloudCostModel.from_instance noRiInstance PricingTier.ri1yr ≠ Except.ok m)) :=
  ⟨rfl, from_instance_unavailable_tier_fails noRiInstance PricingTier.ri1yr rfl⟩

/-- C6: with zero total processors `schedule_lpt` always raises the
configuration error; with at least one processor it always returns a
result. -/
theorem schedule_zero_processors_guard (events : List Event) (site : SiteProfile)
    (cloud_containers : ℕ) (cloud_model : CloudCostModel) (track : Bool) :
    (site.available_gpus + cloud_containers = 0 →
      schedule_lpt events site cloud_containers cloud_model track =
        Except.error "Must have at least one processor (on-prem GPU or cloud container)")
    ∧ (1 ≤ site.available_gpus + cloud_containers →
        ∃ r, schedule_lpt events site cloud_containers cloud_model track = Except.ok r) := by
  constructor
  · intro h
    rw [schedule_lpt, if_pos h]
  · intro h
    rw [schedule_lpt, if_neg (by omega)]
    exact ⟨_, rfl⟩

/-- Witness for C6: a zero-processor call errors, a one-processor call
returns a result. -/
theorem schedule_zero_processors_guard_witness :
    (zeroGpuSite.available_gpus + 0 = 0 ∧
      schedule_lpt oneEvent zeroGpuSite 0 defaultModel false =
        Except.error "Must have at least one processor (on-prem GPU or cloud container)")
    ∧ (1 ≤ oneGpuSite.available_gpus + 1 ∧
      ∃ r, schedule_lpt oneEvent oneGpuSite 1 defaultModel false = Except.ok r) :=
  ⟨⟨rfl, (schedule_zero_processors_guard oneEvent zeroGpuSite 0 defaultModel false).1 rfl⟩,
   ⟨by norm_num [oneGpuSite],
    (schedule_zero_processors_guard oneEvent oneGpuSite 1 defaultModel false).2
      (by norm_num [oneGpuSite])⟩⟩

/-- The strict-less accumulation of `find_optimal_configuration` computes
a first minimum of the weighted score. -/
theorem bestStep_foldl_spec (cw : ℚ) (cr tr : ℚ × ℚ) :
    ∀ (l : List ParetoPoint) (p0 : ParetoPoint),
      ∃ p, l.foldl (bestStep cw cr tr) (some (p0, wscore cw cr tr p0)) =
            some (p, wscore cw cr tr p)
        ∧ (p = p0 ∨ p ∈ l)
        ∧ wscore cw cr tr p ≤ wscore cw cr tr p0
        ∧ ∀ q ∈ l, wscore cw cr tr p ≤ wscore cw cr tr q := by
  intro l
  induction l with
  | nil =>
      intro p0
      exact ⟨p0, rfl, Or.inl rfl, le_refl _, fun q hq => absurd hq (List.not_mem_nil q)⟩
  | cons x xs ih =>
      intro p0
      rw [List.foldl_cons]
      by_cases hx : wscore cw cr tr x < wscore cw cr tr p0
      · have hstep : bestStep cw cr tr (some (p0, wscore cw cr tr p0)) x =
            some (x, wscore cw cr tr x) := by
          unfold bestStep wscore
          unfold wscore at hx
          simp only
          rw [if_pos hx]
        rw [hstep]
        obtain ⟨p, hp, hmem, hle, hall⟩ := ih x
        refine ⟨p, hp, ?_, le_of_lt (lt_of_le_of_lt hle hx), ?_⟩
        · rcases hmem with rfl | hm
          · exact Or.inr (List.mem_cons_self _ _)
          · exact Or.inr (List.mem_cons_of_mem _ hm)
        · intro q hq
          rcases List.mem_cons.mp hq with rfl | hm
          · exact hle
          · exact hall q hm
      · have hstep : bestStep cw cr tr (some (p0, wscore cw cr tr p0)) x =
            some (p0, wscore cw cr tr p0) := by
          unfold bestStep wscore
          unfold wscore at hx
          simp only
          rw [if_neg hx]
        rw [hstep]
        obtain ⟨p, hp, hmem, hle, hall⟩ := ih p0
        refine ⟨p, hp, ?_, hle, ?_⟩
        · rcases hmem with rfl | hm
          · exact Or.inl rfl
          · exact Or.inr (List.mem_cons_of_mem _ hm)
        · intro q hq
          rcases List.mem_cons.mp hq with rfl | hm
          · exact le_trans hle (not_lt.mp hx)
          · exact hall q hm

/-- `find_optimal_configuration` returns a Pareto-optimal member of the
input minimizing the weighted score, with the normalization ranges taken
over the Pareto-optimal points only. -/
theorem find_optimal_configuration_spec (pareto_points : List ParetoPoint) (cw : ℚ)
    (hne : pareto_points.filter (fun p => p.is_pareto_optimal) ≠ []) :
    ∃ p, find_optimal_configuration pareto_points cw = some p ∧
      p.is_pareto_optimal = true ∧ p ∈ pareto_points ∧
      ∀ q ∈ pareto_points, q.is_pareto_optimal = true →
        wscore cw
          (listMin ((pareto_points.filter (fun p => p.is_pareto_optimal)).map (fun p => p.cost)),
            listMax ((pareto_points.filter (fun p => p.is_pareto_optimal)).map (fun p => p.cost)))
          (listMin ((pareto_points.filter (fun p => p.is_pareto_optimal)).map (fun p => p.time)),
            listMax ((pareto_points.filter (fun p => p.is_pareto_optimal)).map (fun p => p.time)))
          p ≤
        wscore cw
          (listMin ((pareto_points.filter (fun p => p.is_pareto_optimal)).map (fun p => p.cost)),
            listMax ((pareto_points.filter (fun p => p.is_pareto_optimal)).map (fun p => p.cost)))
          (listMin ((pareto_points.filter (fun p => p.is_pareto_optimal)).map (fun p => p.time)),
            listMax ((pareto_points.filter (fun p => p.is_pareto_optimal)).map (fun p => p.time)))
          q := by
  unfold find_optimal_configuration
  cases ho : pareto_points.filter (fun p => p.is_pareto_optimal) with
  | nil => exact absurd ho hne
  | cons o os =>
      simp only [List.isEmpty_cons, Bool.false_eq_true, if_false, List.foldl_cons]
      have h0 : bestStep cw
          (listMin ((o :: os).map (fun p => p.cost)), listMax ((o :: os).map (fun p => p.cost)))
          (listMin ((o :: os).map (fun p => p.time)), listMax ((o :: os).map (fun p => p.time)))
          none o =
          some (o, wscore cw
            (listMin ((o :: os).map (fun p => p.cost)), listMax ((o :: os).map (fun p => p.cost)))
            (listMin ((o :: os).map (fun p => p.time)), listMax ((o :: os).map (fun p => p.time)))
            o) := rfl
      rw [h0]
      obtain ⟨p, hp, hmem, hle, hall⟩ := bestStep_foldl_spec cw
        (listMin ((o :: os).map (fun p => p.cost)), listMax ((o :: os).map (fun p => p.cost)))
        (listMin ((o :: os).map (fun p => p.time)), listMax ((o :: os).map (fun p => p.time)))
        os o
      rw [hp]
      have hpm : p ∈ pareto_points.filter (fun p => p.is_pareto_optimal) := by
        rw [ho]
        rcases hmem with rfl | hm
        · exact List.mem_cons_self _ _
        · exact List.mem_cons_of_mem _ hm
      have hpf := List.mem_filter.mp hpm
      refine ⟨p, by simp, hpf.2, hpf.1, ?_⟩
      intro q hq hqopt
      have hqm : q ∈ o :: os := by
        rw [← ho]
        exact List.mem_filter.mpr ⟨hq, hqopt⟩
      rcases List.mem_cons.mp hqm with rfl | hm
      · exact hle
      · exact hall q hm

/-- C4: for a non-empty frontier and a cost weight in `[0,1]`,
`find_optimal_configuration` normalizes over the Pareto-optimal points
only and returns the optimal point of lowest weighted score
`cost_weight * cost_norm + (1 - cost_weight) * time_norm`; an axis whose
frontier minimum equals its maximum contributes score `0` (no division by
zero); and on the frontier `(0, 10000), (100, 5000)` weight `1`
selects the cost-`0` point while weight `0` selects the time-`5000`
point. -/
theorem weighted_selection_correct (pareto_points : List ParetoPoint) (cost_weight : ℚ)
    (h0 : 0 ≤ cost_weight) (h1 : cost_weight ≤ 1)
    (hne : pareto_points.filter (fun p => p.is_pareto_optimal) ≠ []) :
    (∃ p, find_optimal_configuration pareto_points cost_weight = some p ∧
      p.is_pareto_optimal = true ∧ p ∈ pareto_points ∧
      ∀ q ∈ pareto_points, q.is_pareto_optimal = true →
        wscore cost_weight
          (listMin ((pareto_points.filter (fun p => p.is_pareto_optimal)).map (fun p => p.cost)),
            listMax ((pareto_points.filter (fun p => p.is_pareto_optimal)).map (fun p => p.cost)))
          (listMin ((pareto_points.filter (fun p => p.is_pareto_optimal)).map (fun p => p.time)),
            listMax ((pareto_points.filter (fun p => p.is_pareto_optimal)).map (fun p => p.time)))
          p ≤
        wscore cost_weight
          (listMin ((pareto_points.filter (fun p => p.is_pareto_optimal)).map (fun p => p.cost)),
            listMax ((pareto_points.filter (fun p => p.is_pareto_optimal)).map (fun p => p.cost)))
          (listMin ((pareto_points.filter (fun p => p.is_pareto_optimal)).map (fun p => p.time)),
            listMax ((pareto_points.filter (fun p => p.is_pareto_optimal)).map (fun p => p.time)))
          q)
    ∧ (∀ (m t w : ℚ) (tr : ℚ × ℚ),
        calculate_weighted_score m t w (m, m) tr =
          (1 - w) * ((t - tr.1) / (tr.2 - tr.1 + 1 / 10000000000)))
    ∧ find_optimal_configuration c4Points 1 = some c4PointA
    ∧ find_optimal_configuration c4Points 0 = some c4PointB := by
  refine ⟨find_optimal_configuration_spec pareto_points cost_weight hne, ?_, ?_, ?_⟩
  · intro m t w tr
    unfold calculate_weighted_score
    simp only [sub_self, zero_div, mul_zero, zero_add]
  · norm_num [find_optimal_configuration, c4Points, c4PointA, c4PointB,
      calculate_weighted_score, bestStep, listMin, listMax, ratMin, ratMax]
  · norm_num [find_optimal_configuration, c4Points, c4PointA, c4PointB,
      calculate_weighted_score, bestStep, listMin, listMax, ratMin, ratMax]

/-- Witness for C4 at the spec's two-point frontier with weight `1/2`. -/
theorem weighted_selection_correct_witness :
    ((0:ℚ) ≤ 1/2 ∧ (1/2:ℚ) ≤ 1 ∧ c4Points.filter (fun p => p.is_pareto_optimal) ≠ [])
    ∧ ((∃ p, find_optimal_configuration c4Points (1/2) = some p ∧
      p.is_pareto_optimal = true ∧ p ∈ c4Points ∧
      ∀ q ∈ c4Points, q.is_pareto_optimal = true →
        wscore (1/2)
          (listMin ((c4Points.filter (fun p => p.is_pareto_optimal)).map (fun p => p.cost)),
            listMax ((c4Points.filter (fun p => p.is_pareto_optimal)).map (fun p => p.cost)))
          (listMin ((c4Points.filter (fun p => p.is_pareto_optimal)).map (fun p => p.time)),
            listMax ((c4Points.filter (fun p => p.is_pareto_optimal)).map (fun p => p.time)))
          p ≤
        wscore (1/2)
          (listMin ((c4Points.filter (fun p => p.is_pareto_optimal)).map (fun p => p.cost)),
            listMax ((c4Points.filter (fun p => p.is_pareto_optimal)).map (fun p => p.cost)))
          (listMin ((c4Points.filter (fun p => p.is_pareto_optimal)).map (fun p => p.time)),
            listMax ((c4Points.filter (fun p => p.is_pareto_optimal)).map (fun p => p.time)))
          q)
    ∧ (∀ (m t w : ℚ) (tr : ℚ × ℚ),
        calculate_weighted_score m t w (m, m) tr =
          (1 - w) * ((t - tr.1) / (tr.2 - tr.1 + 1 / 10000000000)))
    ∧ find_optimal_configuration c4Points 1 = some c4PointA
    ∧ find_optimal_configuration c4Points 0 = some c4PointB) :=
  ⟨⟨by norm_num, by norm_num, by simp [c4Points, c4PointA, c4PointB]⟩,
   weighted_selection_correct c4Points (1/2) (by norm_num) (by norm_num)
     (by simp [c4Points, c4PointA, c4PointB])⟩

/-- `popMin` fails exactly on the empty heap. -/
theorem popMin_eq_none (l : List HeapEntry) : popMin l = none ↔ l = [] := by
  cases l with
  | nil => simp [popMin]
  | cons e es =>
      unfold popMin
      cases popMin es with
      | none => simp
      | some mr =>
          obtain ⟨m', rest'⟩ := mr
          by_cases hle : entryLe e m'
          · simp [hle]
          · simp [hle]

/-- A non-empty heap pops some least entry, with one fewer entry left. -/
theorem popMin_spec : ∀ (l : List HeapEntry), l ≠ [] →
    ∃ m rest, popMin l = some (m, rest) ∧ rest.length + 1 = l.length := by
  intro l
  induction l with
  | nil => intro h; exact absurd rfl h
  | cons e es ih =>
      intro _
      by_cases hes : es = []
      · subst hes
        exact ⟨e, [], rfl, rfl⟩
      · obtain ⟨m, rest, hpm, hlen⟩ := ih hes
        have hshape : popMin (e :: es) =
            if entryLe e m then some (e, m :: rest) else some (m, e :: rest) := by
          unfold popMin
          rw [hpm]
        rw [hshape]
        by_cases hle : entryLe e m
        · rw [if_pos hle]
          exact ⟨e, m :: rest, rfl, by simp only [List.length_cons]; omega⟩
        · rw [if_neg hle]
          exact ⟨m, e :: rest, rfl, by simp only [List.length_cons]; omega⟩

/-- The popped entry together with the remaining heap is a permutation of
the original heap. -/
theorem popMin_perm : ∀ (l : List HeapEntry) (m : HeapEntry) (rest : List HeapEntry),
    popMin l = some (m, rest) → l.Perm (m :: rest) := by
  intro l
  induction l with
  | nil => intro m rest h; simp [popMin] at h
  | cons e es ih =>
      intro m rest h
      cases hes : popMin es with
      | none =>
          have hesnil : es = [] := (popMin_eq_none es).mp hes
          subst hesnil
          have hval : popMin [e] = some (e, []) := rfl
          rw [hval] at h
          cases h
          exact List.Perm.refl _
      | some mr =>
          obtain ⟨m', rest'⟩ := mr
          have hperm := ih m' rest' hes
          have hshape : popMin (e :: es) =
              if entryLe e m' then some (e, m' :: rest') else some (m', e :: rest') := by
            unfold popMin
            rw [hes]
          rw [hshape] at h
          by_cases hle : entryLe e m'
          · rw [if_pos hle] at h
            cases h
            exact List.Perm.cons e hperm
          · rw [if_neg hle] at h
            cases h
            exact (List.Perm.cons e hperm).trans (List.Perm.swap _ _ _)

/-- One scheduler step keeps the heap size and assigns exactly one event
to exactly one pool. -/
theorem lptStep_counts (model : CloudCostModel) (st : LptState) (ev : Event)
    (hne : st.heap ≠ []) :
    (lptStep model st ev).heap.length = st.heap.length ∧
    (lptStep model st ev).cloud_event_count + (lptStep model st ev).on_prem_event_count =
      st.cloud_event_count + st.on_prem_event_count + 1 := by
  obtain ⟨m, rest, hpm, hlen⟩ := popMin_spec st.heap hne
  obtain ⟨load, pid, ic⟩ := m
  unfold lptStep
  rw [hpm]
  cases ic <;> simp <;> omega

/-- Over the whole assignment loop: heap size is invariant and every
event increments exactly one of the two pool counters. -/
theorem lptFold_counts (model : CloudCostModel) :
    ∀ (l : List Event) (st : LptState), st.heap ≠ [] →
      (l.foldl (lptStep model) st).heap.length = st.heap.length ∧
      (l.foldl (lptStep model) st).cloud_event_count +
          (l.foldl (lptStep model) st).on_prem_event_count =
        st.cloud_event_count + st.on_prem_event_count + l.length := by
  intro l
  induction l with
  | nil =>
      intro st h
      exact ⟨rfl, by simp⟩
  | cons e es ih =>
      intro st h
      rw [List.foldl_cons]
      have hstep := lptStep_counts model st e h
      have hne' : (lptStep model st e).heap ≠ [] := by
        intro hnil
        rw [hnil] at hstep
        exact h (List.eq_nil_of_length_eq_zero hstep.1.symm)
      obtain ⟨ih1, ih2⟩ := ih (lptStep model st e) hne'
      refine ⟨by rw [ih1, hstep.1], ?_⟩
      rw [ih2, hstep.2]
      simp only [List.length_cons]
      omega

/-- The initial heap has one entry per processor. -/
theorem initHeap_length (g c : ℕ) (s : ℚ) : (initHeap g c s).length = g + c := by
  simp [initHeap]

/-- The LPT sort is a permutation of its input. -/
theorem sortLpt_length (events : List Event) : (sortLpt events).length = events.length := by
  unfold sortLpt
  exact (List.perm_insertionSort _ events).length_eq

/-- C10: every successful schedule partitions the whole batch — on-prem
and cloud event counts add up to the total event count, which is the
input length. -/
theorem schedule_conserves_events (events : List Event) (site : SiteProfile)
    (cloud_containers : ℕ) (model : CloudCostModel) (track : Bool) (r : BatchResult)
    (h : schedule_lpt events site cloud_containers model track = Except.ok r) :
    r.events_on_prem + r.events_on_cloud = r.total_events ∧
    r.total_events = events.length := by
  unfold schedule_lpt at h
  by_cases hz : site.available_gpus + cloud_containers = 0
  · rw [if_pos hz] at h
    exact Except.noConfusion h
  · rw [if_neg hz] at h
    injection h with h
    subst h
    unfold scheduleBody
    refine ⟨?_, rfl⟩
    have hne : (initHeap site.available_gpus cloud_containers
        model.container_startup_sec) ≠ [] := by
      intro hnil
      have hl := initHeap_length site.available_gpus cloud_containers
        model.container_startup_sec
      rw [hnil] at hl
      exact hz hl.symm
    have hcounts := (lptFold_counts model (sortLpt events)
      { heap := initHeap site.available_gpus cloud_containers model.container_startup_sec
        cloud_event_count := 0
        on_prem_event_count := 0
        total_cloud_cost := 0
        assignments := if track then some [] else none } hne).2
    rw [sortLpt_length] at hcounts
    dsimp only at hcounts ⊢
    omega

/-- Witness for C10: a concrete two-event, two-processor run. -/
theorem schedule_conserves_events_witness :
    (schedule_lpt twoEvents oneGpuSite 1 defaultModel false =
      Except.ok ({ config_id := "G1_C1", on_prem_gpus := 1, cloud_containers := 1,
                   total_events := 2, cloud_cost := 0, turnaround_time_sec := 30,
                   events_on_prem := 2, events_on_cloud := 0, on_prem_finish_sec := 7,
                   cloud_finish_sec := 30, assignments := none } : BatchResult))
    ∧ (({ config_id := "G1_C1", on_prem_gpus := 1, cloud_containers := 1,
          total_events := 2, cloud_cost := 0, turnaround_time_sec := 30,
          events_on_prem := 2, events_on_cloud := 0, on_prem_finish_sec := 7,
          cloud_finish_sec := 30, assignments := none } : BatchResult).events_on_prem +
        ({ config_id := "G1_C1", on_prem_gpus := 1, cloud_containers := 1,
           total_events := 2, cloud_cost := 0, turnaround_time_sec := 30,
           events_on_prem := 2, events_on_cloud := 0, on_prem_finish_sec := 7,
           cloud_finish_sec := 30, assignments := none } : BatchResult).events_on_cloud =
        ({ config_id := "G1_C1", on_prem_gpus := 1, cloud_containers := 1,
           total_events := 2, cloud_cost := 0, turnaround_time_sec := 30,
           events_on_prem := 2, events_on_cloud := 0, on_prem_finish_sec := 7,
           cloud_finish_sec := 30, assignments := none } : BatchResult).total_events ∧
       ({ config_id := "G1_C1", on_prem_gpus := 1, cloud_containers := 1,
          total_events := 2, cloud_cost := 0, turnaround_time_sec := 30,
          events_on_prem := 2, events_on_cloud := 0, on_prem_finish_sec := 7,
          cloud_finish_sec := 30, assignments := none } : BatchResult).total_events =
        twoEvents.length) := by
  have hEq : schedule_lpt twoEvents oneGpuSite 1 defaultModel false =
      Except.ok ({ config_id := "G1_C1", on_prem_gpus := 1, cloud_containers := 1,
                   total_events := 2, cloud_cost := 0, turnaround_time_sec := 30,
                   events_on_prem := 2, events_on_cloud := 0, on_prem_finish_sec := 7,
                   cloud_finish_sec := 30, assignments := none } : BatchResult) := by
    norm_num [schedule_lpt, scheduleBody, sortLpt, lptStep, popMin, entryLe, initHeap,
      maxLoad, maxLoadWhere, ratMax, twoEvents, oneGpuSite, defaultModel,
      List.insertionSort, List.orderedInsert, CloudCostModel.event_cloud_time_for,
      CloudCostModel.event_cloud_cost_for, CloudCostModel.effective_cost_per_hour,
      List.range_succ]
    rfl
  exact ⟨hEq, schedule_conserves_events twoEvents oneGpuSite 1 defaultModel false _ hEq⟩

/-- `ratMax` is the lattice `max` on `ℚ`. -/
theorem ratMax_eq_max (a b : ℚ) : ratMax a b = max a b := by
  unfold ratMax
  rcases lt_trichotomy a b with h | h | h
  · rw [if_pos h, max_eq_right h.le]
  · subst h
    rw [if_neg (lt_irrefl a), max_self]
  · rw [if_neg (not_lt.mpr h.le), max_eq_left h.le]

/-- One scheduler step on an all-on-prem heap keeps the heap all-on-prem,
the cloud cost and the cloud event count unchanged. -/
theorem lptStep_all_on_prem (model : CloudCostModel) (st : LptState) (ev : Event)
    (h : ∀ e ∈ st.heap, e.2.2 = false) :
    (∀ e ∈ (lptStep model st ev).heap, e.2.2 = false) ∧
    (lptStep model st ev).total_cloud_cost = st.total_cloud_cost ∧
    (lptStep model st ev).cloud_event_count = st.cloud_event_count := by
  unfold lptStep
  cases hpm : popMin st.heap with
  | none => exact ⟨h, rfl, rfl⟩
  | some mr =>
      obtain ⟨⟨load, pid, ic⟩, rest⟩ := mr
      have hperm := popMin_perm st.heap _ _ hpm
      have hmem : ((load, pid, ic) : HeapEntry) ∈ st.heap :=
        hperm.mem_iff.mpr (List.mem_cons_self _ _)
      have hic : ic = false := h _ hmem
      subst hic
      refine ⟨?_, by simp, by simp⟩
      intro e he
      simp only at he
      rcases List.mem_cons.mp he with rfl | hr
      · simp
      · exact h e (hperm.mem_iff.mpr (List.mem_cons_of_mem _ hr))

/-- The whole assignment loop on an all-on-prem heap: no cloud cost, no
cloud events, heap stays all-on-prem. -/
theorem lptFold_all_on_prem (model : CloudCostModel) :
    ∀ (l : List Event) (st : LptState), (∀ e ∈ st.heap, e.2.2 = false) →
      (∀ e ∈ (l.foldl (lptStep model) st).heap, e.2.2 = false) ∧
      (l.foldl (lptStep model) st).total_cloud_cost = st.total_cloud_cost ∧
      (l.foldl (lptStep model) st).cloud_event_count = st.cloud_event_count := by
  intro l
  induction l with
  | nil => intro st h; exact ⟨h, rfl, rfl⟩
  | cons e es ih =>
      intro st h
      rw [List.foldl_cons]
      obtain ⟨h1, h2, h3⟩ := lptStep_all_on_prem model st e h
      obtain ⟨g1, g2, g3⟩ := ih (lptStep model st e) h1
      exact ⟨g1, g2.trans h2, g3.trans h3⟩

/-- With zero cloud containers every initial heap entry is on-prem. -/
theorem initHeap_zero_cloud (g : ℕ) (s : ℚ) :
    ∀ e ∈ initHeap g 0 s, e.2.2 = false := by
  intro e he
  unfold initHeap at he
  simp only [List.range_zero, List.map_nil, List.append_nil, List.mem_map,
    List.mem_range] at he
  obtain ⟨i, -, rfl⟩ := he
  rfl

/-- On an all-on-prem heap the on-prem finish accumulation is the makespan
accumulation. -/
theorem maxLoadWhere_false_aux :
    ∀ (l : List HeapEntry), (∀ e ∈ l, e.2.2 = false) → ∀ acc : ℚ,
      l.foldl (fun acc e => if e.2.2 == false then ratMax acc e.1 else acc) acc =
      l.foldl (fun acc e => ratMax acc e.1) acc := by
  intro l
  induction l with
  | nil => intro _ acc; rfl
  | cons e es ih =>
      intro h acc
      simp only [List.foldl_cons]
      have hcond : (e.2.2 == false) = true := by
        rw [h e (List.mem_cons_self _ _)]
        rfl
      rw [if_pos hcond]
      exact ih (fun x hx => h x (List.mem_cons_of_mem _ hx)) _

/-- `maxLoadWhere false` equals `maxLoad` on all-on-prem heaps. -/
theorem maxLoadWhere_false_eq (l : List HeapEntry) (h : ∀ e ∈ l, e.2.2 = false) :
    maxLoadWhere false l = maxLoad l :=
  maxLoadWhere_false_aux l h 0

/-- The makespan accumulation over constant-load entries. -/
theorem maxLoad_const_aux :
    ∀ (l : List HeapEntry) (v : ℚ), (∀ e ∈ l, e.1 = v) → ∀ acc : ℚ,
      l.foldl (fun acc e => ratMax acc e.1) acc = if l.isEmpty then acc else ratMax acc v := by
  intro l
  induction l with
  | nil => intro v _ acc; rfl
  | cons e es ih =>
      intro v h acc
      simp only [List.foldl_cons, List.isEmpty_cons, if_false, Bool.false_eq_true]
      rw [h e (List.mem_cons_self _ _), ih v (fun x hx => h x (List.mem_cons_of_mem _ hx))]
      by_cases hes : es.isEmpty
      · rw [if_pos hes]
      · rw [if_neg hes]
        simp only [ratMax_eq_max]
        rw [max_assoc, max_self]

/-- Makespan of the initial heap: `0` without containers, the start-up
overhead with at least one (non-negative start-up). -/
theorem maxLoad_initHeap (g c : ℕ) (s : ℚ) (hs : 0 ≤ s) :
    maxLoad (initHeap g c s) = if c = 0 then 0 else s := by
  unfold maxLoad initHeap
  rw [List.foldl_append]
  have hm1 : ∀ e ∈ (List.range g).map (fun i => ((0 : ℚ), i, false)), e.1 = (0 : ℚ) := by
    intro e he
    simp only [List.mem_map] at he
    obtain ⟨i, -, rfl⟩ := he
    rfl
  have hm2 : ∀ e ∈ (List.range c).map (fun i => ((s : ℚ), g + i, true)), e.1 = s := by
    intro e he
    simp only [List.mem_map] at he
    obtain ⟨i, -, rfl⟩ := he
    rfl
  have h1 : ((List.range g).map (fun i => ((0 : ℚ), i, false))).foldl
      (fun acc e => ratMax acc e.1) 0 = 0 := by
    rw [maxLoad_const_aux _ 0 hm1 0]
    split
    · rfl
    · rw [ratMax_eq_max, max_self]
  rw [h1, maxLoad_const_aux _ s hm2 0]
  by_cases hc : c = 0
  · subst hc
    rw [if_pos rfl]
    simp
  · rw [if_neg hc, if_neg (by simp [hc]), ratMax_eq_max, max_eq_right hs]

/-- C5 counterexample: on a zero-job list with one elastic container the
makespan is the 30-second container start-up, not the fixed-pool finish
time `0`. -/
theorem schedule_empty_jobs_makespan_counterexample :
    schedule_lpt ([] : List Event) oneGpuSite 1 defaultModel false =
      Except.ok ({ config_id := "G1_C1", on_prem_gpus := 1, cloud_containers := 1,
                   total_events := 0, cloud_cost := 0, turnaround_time_sec := 30,
                   events_on_prem := 0, events_on_cloud := 0, on_prem_finish_sec := 0,
                   cloud_finish_sec := 30, assignments := none } : BatchResult)
    ∧ (30 : ℚ) ≠ 0 := by
  constructor
  · norm_num [schedule_lpt, scheduleBody, sortLpt, initHeap, maxLoad, maxLoadWhere,
      ratMax, oneGpuSite, defaultModel, List.insertionSort, List.range_succ]
    rfl
  · norm_num

/-- C5 amended: degenerate-but-valid inputs succeed with zero elastic
cost; with zero elastic processors the makespan equals the fixed-pool
finish time, while a zero-job list has makespan `0` without containers
and the container start-up overhead with at least one container. -/
theorem schedule_degenerate_inputs (events : List Event) (site : SiteProfile)
    (cloud_containers : ℕ) (model : CloudCostModel) (track : Bool)
    (hp : 1 ≤ site.available_gpus + cloud_containers)
    (hs : 0 ≤ model.container_startup_sec) :
    (cloud_containers = 0 →
      ∃ r, schedule_lpt events site cloud_containers model track = Except.ok r ∧
        r.cloud_cost = 0 ∧ r.events_on_cloud = 0 ∧
        r.turnaround_time_sec = r.on_prem_finish_sec)
    ∧ (∃ r, schedule_lpt [] site cloud_containers model track = Except.ok r ∧
        r.cloud_cost = 0 ∧ r.events_on_prem = 0 ∧ r.events_on_cloud = 0 ∧
        r.turnaround_time_sec =
          (if cloud_containers = 0 then 0 else model.container_startup_sec)) := by
  constructor
  · intro h0
    subst h0
    have hall0 : ∀ e ∈ initHeap site.available_gpus 0 model.container_startup_sec,
        e.2.2 = false := initHeap_zero_cloud _ _
    obtain ⟨hfin_all, hfin_cost, hfin_cnt⟩ := lptFold_all_on_prem model (sortLpt events)
      { heap := initHeap site.available_gpus 0 model.container_startup_sec
        cloud_event_count := 0
        on_prem_event_count := 0
        total_cloud_cost := 0
        assignments := if track then some [] else none } hall0
    rw [schedule_lpt, if_neg (by omega)]
    refine ⟨_, rfl, ?_, ?_, ?_⟩
    · unfold scheduleBody
      dsimp only
      exact hfin_cost
    · unfold scheduleBody
      dsimp only
      exact hfin_cnt
    · unfold scheduleBody
      dsimp only
      exact (maxLoadWhere_false_eq _ hfin_all).symm
  · rw [schedule_lpt, if_neg (by omega)]
    refine ⟨_, rfl, rfl, rfl, rfl, ?_⟩
    show maxLoad (initHeap site.available_gpus cloud_containers
      model.container_startup_sec) = _
    exact maxLoad_initHeap _ _ _ hs

/-- Witness for the amended C5 at a concrete zero-elastic configuration. -/
theorem schedule_degenerate_inputs_witness :
    (1 ≤ oneGpuSite.available_gpus + 0 ∧ (0:ℚ) ≤ defaultModel.container_startup_sec)
    ∧ ((0 = 0 →
      ∃ r, schedule_lpt twoEvents oneGpuSite 0 defaultModel false = Except.ok r ∧
        r.cloud_cost = 0 ∧ r.events_on_cloud = 0 ∧
        r.turnaround_time_sec = r.on_prem_finish_sec)
    ∧ (∃ r, schedule_lpt [] oneGpuSite 0 defaultModel false = Except.ok r ∧
        r.cloud_cost = 0 ∧ r.events_on_prem = 0 ∧ r.events_on_cloud = 0 ∧
        r.turnaround_time_sec = (if 0 = 0 then 0 else defaultModel.container_startup_sec))) :=
  ⟨⟨by norm_num [oneGpuSite], by norm_num [defaultModel]⟩,
   schedule_degenerate_inputs twoEvents oneGpuSite 0 defaultModel false
     (by norm_num [oneGpuSite]) (by norm_num [defaultModel])⟩

/-- Non-negative elastic duration under non-negative timing parameters. -/
theorem event_cloud_time_nonneg (model : CloudCostModel) (t : ℚ) (ht : 0 ≤ t)
    (hr : ∀ r, model.ratio = some r → 0 ≤ r)
    (hct : 0 ≤ model.cloud_time_per_event_sec)
    (htr : 0 ≤ model.data_transfer_sec_per_event) :
    0 ≤ model.event_cloud_time_for t := by
  unfold CloudCostModel.event_cloud_time_for
  cases hrat : model.ratio with
  | none => exact add_nonneg hct htr
  | some r => exact add_nonneg (mul_nonneg (hr r hrat) ht) htr

/-- The makespan accumulation never decreases below its accumulator. -/
theorem foldl_maxLoad_acc_le :
    ∀ (l : List HeapEntry) (acc : ℚ), acc ≤ l.foldl (fun acc e => ratMax acc e.1) acc := by
  intro l
  induction l with
  | nil => intro acc; exact le_refl acc
  | cons e es ih =>
      intro acc
      simp only [List.foldl_cons]
      calc acc ≤ ratMax acc e.1 := by rw [ratMax_eq_max]; exact le_max_left _ _
        _ ≤ es.foldl (fun acc e => ratMax acc e.1) (ratMax acc e.1) := ih _

/-- Every heap entry's load is at most the makespan. -/
theorem le_maxLoad (l : List HeapEntry) : ∀ e ∈ l, e.1 ≤ maxLoad l := by
  unfold maxLoad
  suffices h : ∀ (acc : ℚ), ∀ e ∈ l, e.1 ≤ l.foldl (fun acc e => ratMax acc e.1) acc from h 0
  induction l with
  | nil => intro acc e he; exact absurd he (List.not_mem_nil e)
  | cons f fs ih =>
      intro acc e he
      simp only [List.foldl_cons]
      rcases List.mem_cons.mp he with rfl | hm
      · calc e.1 ≤ ratMax acc e.1 := by rw [ratMax_eq_max]; exact le_max_right _ _
          _ ≤ fs.foldl (fun acc e => ratMax acc e.1) (ratMax acc e.1) :=
            foldl_maxLoad_acc_le fs _
      · exact ih _ e hm

/-- One scheduler step preserves non-negative loads and the fact that
every recorded assignment's effective duration is bounded by some current
processor load. -/
theorem lptStep_bound (model : CloudCostModel) (st : LptState) (ev : Event)
    (hev : 0 ≤ ev.processing_time_sec)
    (hcl : 0 ≤ model.event_cloud_time_for ev.processing_time_sec)
    (hload : ∀ e ∈ st.heap, 0 ≤ e.1)
    (hasg : ∀ al, st.assignments = some al →
      ∀ a ∈ al, ∃ e ∈ st.heap, a.effective_time_sec ≤ e.1) :
    (∀ e ∈ (lptStep model st ev).heap, 0 ≤ e.1) ∧
    (∀ al, (lptStep model st ev).assignments = some al →
      ∀ a ∈ al, ∃ e ∈ (lptStep model st ev).heap, a.effective_time_sec ≤ e.1) := by
  unfold lptStep
  cases hpm : popMin st.heap with
  | none => exact ⟨hload, hasg⟩
  | some mr =>
      obtain ⟨⟨load, pid, ic⟩, rest⟩ := mr
      have hperm := popMin_perm st.heap _ _ hpm
      have hmem : ((load, pid, ic) : HeapEntry) ∈ st.heap :=
        hperm.mem_iff.mpr (List.mem_cons_self _ _)
      have hload0 : 0 ≤ load := hload _ hmem
      have ht : 0 ≤ (if ic then model.event_cloud_time_for ev.processing_time_sec
          else ev.processing_time_sec) := by
        cases ic
        · simpa using hev
        · simpa using hcl
      constructor
      · intro e he
        simp only at he
        rcases List.mem_cons.mp he with rfl | hr
        · exact add_nonneg hload0 ht
        · exact hload _ (hperm.mem_iff.mpr (List.mem_cons_of_mem _ hr))
      · intro al hal a ha
        simp only at hal
        cases hsa : st.assignments with
        | none =>
            rw [hsa] at hal
            exact Option.noConfusion hal
        | some al0 =>
            rw [hsa] at hal
            injection hal with hal2
            subst hal2
            rcases List.mem_append.mp ha with hmema | hmemb
            · obtain ⟨e, hein, hle⟩ := hasg al0 hsa a hmema
              rcases List.mem_cons.mp (hperm.mem_iff.mp hein) with rfl | hrest
              · refine ⟨_, List.mem_cons_self _ _, le_trans hle ?_⟩
                exact le_add_of_nonneg_right ht
              · exact ⟨e, List.mem_cons_of_mem _ hrest, hle⟩
            · have haA := List.mem_singleton.mp hmemb
              subst haA
              refine ⟨_, List.mem_cons_self _ _, ?_⟩
              exact le_add_of_nonneg_left hload0

/-- The assignment-bound invariant over the whole assignment loop. -/
theorem lptFold_bound (model : CloudCostModel) :
    ∀ (l : List Event), (∀ ev ∈ l, 0 ≤ ev.processing_time_sec ∧
        0 ≤ model.event_cloud_time_for ev.processing_time_sec) →
      ∀ st : LptState, (∀ e ∈ st.heap, 0 ≤ e.1) →
        (∀ al, st.assignments = some al →
          ∀ a ∈ al, ∃ e ∈ st.heap, a.effective_time_sec ≤ e.1) →
        (∀ e ∈ (l.foldl (lptStep model) st).heap, 0 ≤ e.1) ∧
        (∀ al, (l.foldl (lptStep model) st).assignments = some al →
          ∀ a ∈ al, ∃ e ∈ (l.foldl (lptStep model) st).heap,
            a.effective_time_sec ≤ e.1) := by
  intro l
  induction l with
  | nil => intro _ st h1 h2; exact ⟨h1, h2⟩
  | cons ev es ih =>
      intro hts st h1 h2
      rw [List.foldl_cons]
      obtain ⟨hev, hcl⟩ := hts ev (List.mem_cons_self _ _)
      obtain ⟨g1, g2⟩ := lptStep_bound model st ev hev hcl h1 h2
      exact ih (fun x hx => hts x (List.mem_cons_of_mem _ hx)) (lptStep model st ev) g1 g2

/-- The assignment list stays present through the loop when tracking. -/
theorem lptFold_assignments_isSome (model : CloudCostModel) :
    ∀ (l : List Event) (st : LptState), st.assignments.isSome = true →
      (l.foldl (lptStep model) st).assignments.isSome = true := by
  intro l
  induction l with
  | nil => intro st h; exact h
  | cons ev es ih =>
      intro st h
      rw [List.foldl_cons]
      refine ih _ ?_
      unfold lptStep
      cases hpm : popMin st.heap with
      | none => exact h
      | some mr =>
          obtain ⟨⟨load, pid, ic⟩, rest⟩ := mr
          simp only
          cases hsa : st.assignments with
          | none => rw [hsa] at h; exact Bool.noConfusion h
          | some al0 => rfl

/-- The initial heap has non-negative loads when start-up is
non-negative. -/
theorem initHeap_loads_nonneg (g c : ℕ) (s : ℚ) (hs : 0 ≤ s) :
    ∀ e ∈ initHeap g c s, 0 ≤ e.1 := by
  intro e he
  unfold initHeap at he
  rcases List.mem_append.mp he with h | h
  · simp only [List.mem_map] at h
    obtain ⟨i, -, rfl⟩ := h
    exact le_refl 0
  · simp only [List.mem_map] at h
    obtain ⟨i, -, rfl⟩ := h
    exact hs

/-- C1 amended: for positive job durations, at least one processor and a
cost model with non-negative timing parameters, the makespan of
`schedule_lpt` is at least the effective duration of every single job on
the processor it was placed on.  (The claimed 4/3-of-optimal upper bound
is refuted by `lpt_four_thirds_counterexample`.) -/
theorem lpt_makespan_lower_bound (events : List Event) (site : SiteProfile)
    (cloud_containers : ℕ) (model : CloudCostModel)
    (hp : 1 ≤ site.available_gpus + cloud_containers)
    (hne : events ≠ [])
    (hpos : ∀ e ∈ events, 0 < e.processing_time_sec)
    (hs : 0 ≤ model.container_startup_sec)
    (hr : ∀ r, model.ratio = some r → 0 ≤ r)
    (hct : 0 ≤ model.cloud_time_per_event_sec)
    (htr : 0 ≤ model.data_transfer_sec_per_event) :
    ∃ r, schedule_lpt events site cloud_containers model true = Except.ok r ∧
      ∃ al, r.assignments = some al ∧
        ∀ a ∈ al, a.effective_time_sec ≤ r.turnaround_time_sec := by
  rw [schedule_lpt, if_neg (by omega)]
  refine ⟨_, rfl, ?_⟩
  unfold scheduleBody
  dsimp only
  have hsorted : ∀ ev ∈ sortLpt events, 0 ≤ ev.processing_time_sec ∧
      0 ≤ model.event_cloud_time_for ev.processing_time_sec := by
    intro ev hev
    have hevm : ev ∈ events := by
      unfold sortLpt at hev
      exact (List.perm_insertionSort
        (fun a b => b.processing_time_sec ≤ a.processing_time_sec) events).mem_iff.mp hev
    have hpos' := (hpos ev hevm).le
    exact ⟨hpos', event_cloud_time_nonneg model _ hpos' hr hct htr⟩
  have hinit : ∀ e ∈ initHeap site.available_gpus cloud_containers
      model.container_startup_sec, 0 ≤ e.1 :=
    initHeap_loads_nonneg _ _ _ hs
  obtain ⟨hloads, hbound⟩ := lptFold_bound model (sortLpt events) hsorted
    { heap := initHeap site.available_gpus cloud_containers model.container_startup_sec
      cloud_event_count := 0
      on_prem_event_count := 0
      total_cloud_cost := 0
      assignments := if true = true then some [] else none } hinit
    (by
      intro al hal a ha
      simp only [if_pos rfl] at hal
      injection hal with hal2
      subst hal2
      exact absurd ha (List.not_mem_nil a))
  have hsome := lptFold_assignments_isSome model (sortLpt events)
    { heap := initHeap site.available_gpus cloud_containers model.container_startup_sec
      cloud_event_count := 0
      on_prem_event_count := 0
      total_cloud_cost := 0
      assignments := if true = true then some [] else none } (by simp)
  obtain ⟨al, hal⟩ := Option.isSome_iff_exists.mp hsome
  refine ⟨al, hal, ?_⟩
  intro a ha
  obtain ⟨e, hein, hle⟩ := hbound al hal a ha
  exact le_trans hle (le_maxLoad _ e hein)

set_option maxHeartbeats 2000000 in
/-- C1 counterexample: four 3-second jobs on two fixed processors and one
ten-times-slower elastic container.  LPT (least-loaded placement) sends
one job to the container for a makespan of 30 s, while the optimal
assignment (two jobs per fixed processor) finishes in 6 s — far beyond
the claimed 4/3 factor. -/
theorem lpt_four_thirds_counterexample :
    makespanOf (schedule_lpt c1Events c1Site 1 c1Model false) = some 30 ∧
    optMakespan c1Events 2 1 c1Model = 6 ∧
    ¬ ((30 : ℚ) ≤ 4 / 3 * 6) := by
  refine ⟨?_, ?_, by norm_num⟩
  · norm_num [makespanOf, schedule_lpt, scheduleBody, sortLpt, lptStep, popMin, entryLe,
      initHeap, maxLoad, ratMax, c1Events, c1Site, c1Model, List.insertionSort,
      List.orderedInsert, CloudCostModel.event_cloud_time_for,
      CloudCostModel.event_cloud_cost_for, CloudCostModel.effective_cost_per_hour,
      List.range_succ]
  · norm_num [optMakespan, allAssignments, assignmentMakespan, procLoad, ratMax, ratMin,
      c1Events, c1Model, CloudCostModel.event_cloud_time_for, List.range_succ,
      List.flatMap_cons, List.flatMap_nil]

/-- Witness for the amended C1 at a concrete two-event configuration. -/
theorem lpt_makespan_lower_bound_witness :
    (1 ≤ oneGpuSite.available_gpus + 1 ∧ twoEvents ≠ [] ∧
      (∀ e ∈ twoEvents, 0 < e.processing_time_sec) ∧
      (0:ℚ) ≤ defaultModel.container_startup_sec ∧
      (∀ r, defaultModel.ratio = some r → (0:ℚ) ≤ r) ∧
      (0:ℚ) ≤ defaultModel.cloud_time_per_event_sec ∧
      (0:ℚ) ≤ defaultModel.data_transfer_sec_per_event)
    ∧ (∃ r, schedule_lpt twoEvents oneGpuSite 1 defaultModel true = Except.ok r ∧
        ∃ al, r.assignments = some al ∧
          ∀ a ∈ al, a.effective_time_sec ≤ r.turnaround_time_sec) :=
  ⟨⟨by norm_num [oneGpuSite], by simp [twoEvents],
    by intro e he; simp [twoEvents] at he; rcases he with rfl | rfl <;> norm_num,
    by norm_num [defaultModel],
    by intro r h; simp [defaultModel] at h,
    by norm_num [defaultModel], by norm_num [defaultModel]⟩,
   lpt_makespan_lower_bound twoEvents oneGpuSite 1 defaultModel
     (by norm_num [oneGpuSite]) (by simp [twoEvents])
     (by intro e he; simp [twoEvents] at he; rcases he with rfl | rfl <;> norm_num)
     (by norm_num [defaultModel])
     (by intro r h; simp [defaultModel] at h)
     (by norm_num [defaultModel]) (by norm_num [defaultModel])⟩

/-- A tier listed by `available_pricing` has a present rate. -/
theorem available_pricing_isSome (inst : InstanceType) (pricing : PricingTier)
    (h : pricing ∈ inst.available_pricing) :
    (inst.rate_for_pricing pricing).isSome = true := by
  cases pricing with
  | ondemand => rfl
  | spot => rfl
  | ri1yr =>
      cases h1 : inst.rate_1yr_ri with
      | some r => simp [InstanceType.rate_for_pricing, h1]
      | none =>
          exfalso
          cases h2 : inst.rate_3yr_ri with
          | some r => simp [InstanceType.available_pricing, h1, h2] at h
          | none => simp [InstanceType.available_pricing, h1, h2] at h
  | ri3yr =>
      cases h2 : inst.rate_3yr_ri with
      | some r => simp [InstanceType.rate_for_pricing, h2]
      | none =>
          exfalso
          cases h1 : inst.rate_1yr_ri with
          | some r => simp [InstanceType.available_pricing, h1, h2] at h
          | none => simp [InstanceType.available_pricing, h1, h2] at h

/-- For an available tier `from_instance` succeeds with the tier's own
rate. -/
theorem from_instance_eq_ok (inst : InstanceType) (pricing : PricingTier)
    (h : (inst.rate_for_pricing pricing).isSome = true) :
    CloudCostModel.from_instance inst pricing =
      Except.ok (fromInstanceModel inst pricing) := by
  unfold CloudCostModel.from_instance fromInstanceModel
  cases hr : inst.rate_for_pricing pricing with
  | none => rw [hr] at h; exact Bool.noConfusion h
  | some rate => simp [hr]

/-- Requesting all four tiers and skipping the unavailable ones leaves
exactly the available tiers, in order. -/
theorem filter_allTiers_eq (inst : InstanceType) :
    allTiers.filter (fun pricing => pricing ∈ inst.available_pricing) =
      inst.available_pricing := by
  cases h1 : inst.rate_1yr_ri <;> cases h2 : inst.rate_3yr_ri <;>
    simp [allTiers, InstanceType.available_pricing, h1, h2, List.filter]

/-- A `mapM` over `Except` whose steps all succeed with values of an
explicit function. -/
theorem mapM_ok_of_forall {α β : Type} (f : α → Except String β) (g : α → β) :
    ∀ (xs : List α), (∀ x ∈ xs, f x = Except.ok (g x)) →
      xs.mapM f = Except.ok (xs.map g) := by
  intro xs
  induction xs with
  | nil => intro _; rfl
  | cons x xs ih =>
      intro h
      rw [List.mapM_cons, h x (List.mem_cons_self _ _),
        ih (fun y hy => h y (List.mem_cons_of_mem _ hy))]
      rfl

/-- `range(0, maxC + 1, 1)` has `maxC + 1` values. -/
theorem pyRange_length (maxC : ℕ) : (pyRange 0 (maxC + 1) 1).length = maxC + 1 := by
  simp [pyRange]

/-- C7: with all four tiers requested and a `0..maxC` step-1 pool sweep,
the multi-instance sweep succeeds and yields exactly
`Σ over instances of (available tiers × (maxC + 1))` points, every point
coming from a catalog instance with its pricing tier available for that
instance (unavailable tiers are skipped, never substituted), carrying the
instance identifier and tier as provenance. -/
theorem multi_instance_sweep_correct (events : List Event) (site : SiteProfile)
    (instance_types : List InstanceType) (maxC : ℕ)
    (hg : 1 ≤ site.available_gpus) :
    ∃ pts, generate_multi_instance_sweep events site instance_types allTiers maxC 1 =
        Except.ok pts ∧
      pts.length =
        (instance_types.map (fun i => i.available_pricing.length * (maxC + 1))).sum ∧
      ∀ p ∈ pts, ∃ inst ∈ instance_types,
        p.instance_name = inst.name ∧ p.pricing ∈ inst.available_pricing := by
  have hgen : generate_multi_instance_sweep events site instance_types allTiers maxC 1 =
      Except.ok ((instance_types.map (instSweep events site maxC)).flatten) := by
    unfold generate_multi_instance_sweep
    rw [mapM_ok_of_forall _ (instSweep events site maxC) instance_types ?_]
    · rfl
    · intro inst _
      unfold instSweep
      rw [mapM_ok_of_forall _
        (fun pricing => (pyRange 0 (maxC + 1) 1).map (sweepPointAt events site inst pricing))
        _ ?_]
      · rfl
      · intro pricing hpr
        have hav : pricing ∈ inst.available_pricing := by
          simpa using (List.mem_filter.mp hpr).2
        rw [from_instance_eq_ok inst pricing (available_pricing_isSome inst pricing hav)]
        show Except.bind (Except.ok (fromInstanceModel inst pricing)) _ = _
        rw [Except.bind]
        exact mapM_ok_of_forall _ (sweepPointAt events site inst pricing) _ (by
          intro c _
          rw [show schedule_lpt events site c (fromInstanceModel inst pricing) false =
              Except.ok (scheduleBody events site c (fromInstanceModel inst pricing) false)
            from by rw [schedule_lpt, if_neg (by omega)]]
          rfl)
  refine ⟨_, hgen, ?_, ?_⟩
  · rw [List.length_flatten, List.map_map]
    refine congrArg List.sum (List.map_congr_left ?_)
    intro inst _
    simp only [Function.comp]
    unfold instSweep
    rw [List.length_flatten, List.map_map]
    have hconst : ∀ pricing ∈ allTiers.filter
        (fun pricing => pricing ∈ inst.available_pricing),
        (List.length ∘ fun pricing =>
          (pyRange 0 (maxC + 1) 1).map (sweepPointAt events site inst pricing)) pricing =
          maxC + 1 := by
      intro pricing _
      simp only [Function.comp, List.length_map]
      exact pyRange_length maxC
    rw [List.map_congr_left hconst, List.map_const', List.sum_replicate, smul_eq_mul,
      filter_allTiers_eq]
  · intro p hp
    obtain ⟨li, hli, hpin⟩ := List.mem_flatten.mp hp
    obtain ⟨inst, hinst, rfl⟩ := List.mem_map.mp hli
    refine ⟨inst, hinst, ?_⟩
    unfold instSweep at hpin
    obtain ⟨inner, hinner, hpin2⟩ := List.mem_flatten.mp hpin
    obtain ⟨pricing, hpr, rfl⟩ := List.mem_map.mp hinner
    obtain ⟨c, hc, rfl⟩ := List.mem_map.mp hpin2
    have hav : pricing ∈ inst.available_pricing := by
      simpa using (List.mem_filter.mp hpr).2
    exact ⟨rfl, hav⟩

/-- Witness for C7 at a two-entry catalog (full tiers and no reserved
tiers) with a `0..1` sweep. -/
theorem multi_instance_sweep_correct_witness :
    1 ≤ oneGpuSite.available_gpus ∧
    (∃ pts, generate_multi_instance_sweep oneEvent oneGpuSite c7Catalog allTiers 1 1 =
        Except.ok pts ∧
      pts.length = (c7Catalog.map (fun i => i.available_pricing.length * (1 + 1))).sum ∧
      ∀ p ∈ pts, ∃ inst ∈ c7Catalog,
        p.instance_name = inst.name ∧ p.pricing ∈ inst.available_pricing) :=
  ⟨by norm_num [oneGpuSite],
   multi_instance_sweep_correct oneEvent oneGpuSite c7Catalog 1
     (by norm_num [oneGpuSite])⟩
